import Mathlib

/-!
REST handlers over the P2P key store and the job-error ledger.

Shallow embedding of `core/web/p2p_keys_controller.go` and
`core/web/pipeline_job_spec_errors_controller.go`.

A handler is a function from the request and the application state to the new
application state and the ordered list of observable effects it performed:
calls on the key store or the job ORM (with their outcome), audit events,
response writes and the deferred `ErrorIfClosing` on the request body.

The collaborators the handlers delegate to (the key store, the job ORM,
`p2pkey.MakePeerID`, `SpecError.SetID`, the constant `MediaType`) are not part
of the two files; they are parameters of the handlers, with arbitrary
behaviour over an arbitrary state type.
-/

namespace Chainlink

/-! ## Errors -/

/-- Go `error` values. `new` is a value made by `errors.New`, told apart from
every other such value by `ident` (Go compares them by identity, not by text);
`wrap` is `errors.Wrap(cause, text)`. -/
inductive GoError where
  | new (ident : Nat) (text : String)
  | wrap (text : String) (cause : GoError)
  deriving DecidableEq, Repr

/-- The method `Error()`: the message of an error. -/
def GoError.Error : GoError → String
  | .new _ text => text
  | .wrap text cause => text ++ ": " ++ cause.Error

/-- The function `errors.Is(err, target)` for a non-nil `err`: `err` or an
error in its chain of causes is `target`. -/
def GoError.Is : GoError → GoError → Bool
  | .new i t, target => decide (GoError.new i t = target)
  | .wrap t cause, target => decide (GoError.wrap t cause = target) || cause.Is target

/-- The function `errors.Is(err, target)`, `err` possibly nil (`none`). -/
def errorsIs : Option GoError → GoError → Bool
  | none, _ => false
  | some err, target => err.Is target

/-- The sentinel `sql.ErrNoRows`. -/
def sqlErrNoRows : GoError := .new 0 "sql: no rows in result set"

/-- The value `errors.New("PipelineJobSpecError not found")` built in `Destroy`. -/
def errPipelineJobSpecErrorNotFound : GoError := .new 1 "PipelineJobSpecError not found"

/-! ## HTTP status codes (`net/http`) -/

def StatusOK : Nat := 200
def StatusNoContent : Nat := 204
def StatusBadRequest : Nat := 400
def StatusNotFound : Nat := 404
def StatusUnprocessableEntity : Nat := 422
def StatusInternalServerError : Nat := 500

/-! ## Data -/

deriving instance DecidableEq for Except

abbrev Bytes := List UInt8

/-- The type `p2pkey.PeerID`. -/
structure PeerID where
  raw : String
  deriving DecidableEq, Repr

/-- The type `p2pkey.KeyV2`, as far as the handlers observe it: the results of
its methods `PublicKeyHex()`, `ID()`, `PeerID()` and `Type()` (field `KeyType`,
`Type` being reserved). -/
structure KeyV2 where
  PublicKeyHex : String
  ID : String
  PeerID : PeerID
  KeyType : String
  deriving DecidableEq, Repr

/-- A value of the `map[string]interface{}` handed to the audit logger. -/
inductive AuditValue where
  | str (s : String)
  | peerID (p : PeerID)
  | int (i : Int)
  deriving DecidableEq, Repr

/-- The audit event identifiers of package `audit` that the handlers use. -/
inductive EventID where
  | P2PKeyCreated
  | P2PKeyDeleted
  | P2PKeyImported
  | P2PKeyExported
  | JobErrorDismissed
  deriving DecidableEq, Repr

/-- What a handler hands to the JSON:API response writer. -/
inductive Resource where
  | p2pKey (key : KeyV2)
  | p2pKeys (keys : List KeyV2)
  | null
  deriving DecidableEq, Repr

/-- The function `presenters.NewP2PKeyResource`. -/
def NewP2PKeyResource (key : KeyV2) : Resource := .p2pKey key

/-- The function `presenters.NewP2PKeyResources`. -/
def NewP2PKeyResources (keys : List KeyV2) : Resource := .p2pKeys keys

/-- One response write on the gin context. -/
inductive Response where
  | apiError (status : Nat) (err : GoError)
  | apiResource (status : Nat) (resource : Resource) (name : String)
  | data (status : Nat) (contentType : String) (body : Bytes)
  deriving DecidableEq, Repr

/-- Modelled from the spec: the helper `jsonAPIError(c, status, err)` of the
response-envelope layer, which is not among the source files; it writes one
error response with the given status, built from `err`. -/
def jsonAPIError (status : Nat) (err : GoError) : Response := .apiError status err

/-- Modelled from the spec: the helper
`jsonAPIResponseWithStatus(c, resource, name, status)` of the
response-envelope layer, which is not among the source files; it writes one
response with the given status presenting `resource`. -/
def jsonAPIResponseWithStatus (resource : Resource) (name : String) (status : Nat) : Response :=
  .apiResource status resource name

/-- Modelled from the spec: the helper `jsonAPIResponse(c, resource, name)` of
the response-envelope layer, which is not among the source files; it is
`jsonAPIResponseWithStatus` with status 200. -/
def jsonAPIResponse (resource : Resource) (name : String) : Response :=
  jsonAPIResponseWithStatus resource name StatusOK

/-- A call a handler makes on the key store (`App.GetKeyStore().P2P()`) or on
the job ORM (`App.JobORM()`), with its arguments. -/
inductive Call where
  | GetAll
  | Create
  | Get (id : PeerID)
  | Delete (id : PeerID)
  | Import (keyJSON : Bytes) (password : String)
  | Export (id : PeerID) (password : String)
  | DismissError (id : Int)
  deriving DecidableEq, Repr

/-- An observable effect of a handler. `call c err` is a collaborator call and
the error it returned (`none` for nil). -/
inductive Effect where
  | call (c : Call) (err : Option GoError)
  | audit (event : EventID) (data : List (String × AuditValue))
  | respond (r : Response)
  | errorIfClosing (name : String)
  deriving DecidableEq, Repr

/-! ## The gin context -/

/-- The parts of `*gin.Context` the handlers read. `Body` is the result of
`ioutil.ReadAll(c.Request.Body)`. -/
structure Context where
  Params : List (String × String)
  QueryValues : List (String × String)
  Body : Except GoError Bytes

/-- First value bound to `key` in an ordered list of pairs, `""` when absent. -/
def lookupFirst (kvs : List (String × String)) (key : String) : String :=
  match kvs.find? (fun kv => kv.1 == key) with
  | some kv => kv.2
  | none => ""

/-- The method `c.Param(key)`. -/
def Context.Param (c : Context) (key : String) : String := lookupFirst c.Params key

/-- The method `c.Query(key)`. -/
def Context.Query (c : Context) (key : String) : String := lookupFirst c.QueryValues key

/-! ## Collaborators -/

/-- The application as the handlers use it, over an application state `σ`:
the methods of `App.GetKeyStore().P2P()` and `App.JobORM().DismissError`.
Every method may change the state. -/
structure Application (σ : Type) where
  GetAll : σ → Except GoError (List KeyV2) × σ
  Create : σ → Except GoError KeyV2 × σ
  Get : σ → PeerID → Except GoError KeyV2 × σ
  Delete : σ → PeerID → Except GoError KeyV2 × σ
  Import : σ → Bytes → String → Except GoError KeyV2 × σ
  Export : σ → PeerID → String → Except GoError Bytes × σ
  DismissError : σ → Int → Option GoError × σ

/-- Package-level functions and constants the handlers use that are declared
outside the two files: `p2pkey.MakePeerID`, `(*job.SpecError).SetID` (giving
the ID it stores in the receiver) and the constant `MediaType`. -/
structure Packages where
  MakePeerID : String → Except GoError PeerID
  SetID : String → Except GoError Int
  MediaType : String

/-! ## P2PKeysController -/

/-- The handler `P2PKeysController.Index`. -/
def P2PKeysController.Index {σ : Type} (app : Application σ) (_c : Context) (s : σ) :
    σ × List Effect :=
  match app.GetAll s with
  | (.error err, s1) =>
    (s1, [.call .GetAll (some err), .respond (jsonAPIError StatusInternalServerError err)])
  | (.ok keys, s1) =>
    (s1, [.call .GetAll none, .respond (jsonAPIResponse (NewP2PKeyResources keys) "p2pKey")])

/-- The handler `P2PKeysController.Create`. -/
def P2PKeysController.Create {σ : Type} (app : Application σ) (_c : Context) (s : σ) :
    σ × List Effect :=
  match app.Create s with
  | (.error err, s1) =>
    (s1, [.call .Create (some err), .respond (jsonAPIError StatusInternalServerError err)])
  | (.ok key, s1) =>
    (s1, [.call .Create none,
          .audit .P2PKeyCreated
            [("p2pPublicKey", .str key.PublicKeyHex),
             ("p2pID", .str key.ID),
             ("p2pPeerID", .peerID key.PeerID),
             ("p2pType", .str key.KeyType)],
          .respond (jsonAPIResponse (NewP2PKeyResource key) "p2pKey")])

/-- The handler `P2PKeysController.Delete`. -/
def P2PKeysController.Delete {σ : Type} (pkg : Packages) (app : Application σ) (c : Context)
    (s : σ) : σ × List Effect :=
  match pkg.MakePeerID (c.Param "keyID") with
  | .error err => (s, [.respond (jsonAPIError StatusUnprocessableEntity err)])
  | .ok keyID =>
    match app.Get s keyID with
    | (.error err, s1) =>
      (s1, [.call (.Get keyID) (some err), .respond (jsonAPIError StatusNotFound err)])
    | (.ok key, s1) =>
      match app.Delete s1 key.PeerID with
      | (.error err, s2) =>
        (s2, [.call (.Get keyID) none, .call (.Delete key.PeerID) (some err),
              .respond (jsonAPIError StatusInternalServerError err)])
      | (.ok _, s2) =>
        (s2, [.call (.Get keyID) none, .call (.Delete key.PeerID) none,
              .audit .P2PKeyDeleted [("id", .peerID keyID)],
              .respond (jsonAPIResponse (NewP2PKeyResource key) "p2pKey")])

/-- The handler `P2PKeysController.Import`. The deferred `ErrorIfClosing` runs
when the handler returns, so it is the last effect on every path. -/
def P2PKeysController.Import {σ : Type} (app : Application σ) (c : Context) (s : σ) :
    σ × List Effect :=
  match c.Body with
  | .error err =>
    (s, [.respond (jsonAPIError StatusBadRequest err), .errorIfClosing "Import "])
  | .ok bytes =>
    let oldPassword := c.Query "oldpassword"
    match app.Import s bytes oldPassword with
    | (.error err, s1) =>
      (s1, [.call (.Import bytes oldPassword) (some err),
            .respond (jsonAPIError StatusInternalServerError err),
            .errorIfClosing "Import "])
    | (.ok key, s1) =>
      (s1, [.call (.Import bytes oldPassword) none,
            .audit .P2PKeyImported
              [("p2pPublicKey", .str key.PublicKeyHex),
               ("p2pID", .str key.ID),
               ("p2pPeerID", .peerID key.PeerID),
               ("p2pType", .str key.KeyType)],
            .respond (jsonAPIResponse (NewP2PKeyResource key) "p2pKey"),
            .errorIfClosing "Import "])

/-- The handler `P2PKeysController.Export`. -/
def P2PKeysController.Export {σ : Type} (pkg : Packages) (app : Application σ) (c : Context)
    (s : σ) : σ × List Effect :=
  match pkg.MakePeerID (c.Param "ID") with
  | .error err =>
    (s, [.respond (jsonAPIError StatusUnprocessableEntity err),
         .errorIfClosing "Export request body"])
  | .ok keyID =>
    let newPassword := c.Query "newpassword"
    match app.Export s keyID newPassword with
    | (.error err, s1) =>
      (s1, [.call (.Export keyID newPassword) (some err),
            .respond (jsonAPIError StatusInternalServerError err),
            .errorIfClosing "Export request body"])
    | (.ok bytes, s1) =>
      (s1, [.call (.Export keyID newPassword) none,
            .audit .P2PKeyExported [("keyID", .peerID keyID)],
            .respond (.data StatusOK pkg.MediaType bytes),
            .errorIfClosing "Export request body"])

/-! ## PipelineJobSpecErrorsController -/

/-- The handler `PipelineJobSpecErrorsController.Destroy`. -/
def PipelineJobSpecErrorsController.Destroy {σ : Type} (pkg : Packages) (app : Application σ)
    (c : Context) (s : σ) : σ × List Effect :=
  match pkg.SetID (c.Param "ID") with
  | .error err => (s, [.respond (jsonAPIError StatusUnprocessableEntity err)])
  | .ok jobSpecID =>
    match app.DismissError s jobSpecID with
    | (err, s1) =>
      if errorsIs err sqlErrNoRows then
        (s1, [.call (.DismissError jobSpecID) err,
              .respond (jsonAPIError StatusNotFound errPipelineJobSpecErrorNotFound)])
      else
        match err with
        | some e =>
          (s1, [.call (.DismissError jobSpecID) (some e),
                .respond (jsonAPIError StatusInternalServerError e)])
        | none =>
          (s1, [.call (.DismissError jobSpecID) none,
                .audit .JobErrorDismissed [("id", .int jobSpecID)],
                .respond (jsonAPIResponseWithStatus .null "job" StatusNoContent)])

/-! ## Observations on the effects of a handler -/

/-- The audit events of a trace, in order. -/
def auditsOf : List Effect → List (EventID × List (String × AuditValue))
  | [] => []
  | .audit event data :: rest => (event, data) :: auditsOf rest
  | _ :: rest => auditsOf rest

/-- The responses written in a trace, in order. -/
def responsesOf : List Effect → List Response
  | [] => []
  | .respond r :: rest => r :: responsesOf rest
  | _ :: rest => responsesOf rest

/-- The collaborator calls of a trace with their outcome, in order. -/
def callsOf : List Effect → List (Call × Option GoError)
  | [] => []
  | .call c err :: rest => (c, err) :: callsOf rest
  | _ :: rest => callsOf rest

/-- The status code of a response. -/
def Response.status : Response → Nat
  | .apiError status _ => status
  | .apiResource status _ _ => status
  | .data status _ _ => status

/-- Whether a response is an error response. -/
def Response.isError : Response → Bool
  | .apiError _ _ => true
  | _ => false

/-- The trace wrote exactly one response and it is a success response. -/
def respondedSuccess (tr : List Effect) : Bool :=
  match responsesOf tr with
  | [r] => !r.isError
  | _ => false

/-- The trace wrote exactly one response and it is an error response. -/
def respondedError (tr : List Effect) : Bool :=
  match responsesOf tr with
  | [r] => r.isError
  | _ => false

/-- Some call selected by `p` was made in the trace and returned no error. -/
def callSucceeded (p : Call → Bool) (tr : List Effect) : Bool :=
  (callsOf tr).any (fun ce => p ce.1 && ce.2.isNone)

def Call.isCreate : Call → Bool
  | .Create => true
  | _ => false

def Call.isDelete : Call → Bool
  | .Delete _ => true
  | _ => false

def Call.isImport : Call → Bool
  | .Import _ _ => true
  | _ => false

def Call.isExport : Call → Bool
  | .Export _ _ => true
  | _ => false

/-- One audit event exactly when the operation selected by `p` succeeded, which
is exactly when the single response is a success; no audit event otherwise,
which is exactly when the single response is an error. -/
def AuditOnlyOnSuccess (p : Call → Bool) (tr : List Effect) : Prop :=
  (auditsOf tr).length = (if callSucceeded p tr then 1 else 0) ∧
  respondedSuccess tr = callSucceeded p tr ∧
  respondedError tr = !callSucceeded p tr

/-- The audit data has an entry whose value is `v`. -/
def carries (data : List (String × AuditValue)) (v : AuditValue) : Bool :=
  data.any (fun kv => decide (kv.2 = v))

/-! ## Concrete collaborators used to exercise the handlers -/

/-- A peer-ID parser that accepts exactly the non-empty strings. -/
def demoMakePeerID (value : String) : Except GoError PeerID :=
  if value = "" then .error (.new 10 "invalid peer ID") else .ok ⟨value⟩

/-- The number written by a list of decimal digits, after the digits `acc`. -/
def parseDigits (acc : Nat) : List Char → Option Nat
  | [] => some acc
  | ch :: rest => if ch.isDigit then parseDigits (acc * 10 + (ch.toNat - 48)) rest else none

/-- An ID parser that accepts exactly the non-empty decimal numerals. -/
def demoSetID (value : String) : Except GoError Int :=
  match value.data, parseDigits 0 value.data with
  | _ :: _, some n => .ok (Int.ofNat n)
  | _, _ => .error (.new 11 "invalid ID")

def demoPackages : Packages :=
  { MakePeerID := demoMakePeerID, SetID := demoSetID, MediaType := "application/vnd.api+json" }

def errKeyNotFound : GoError := .new 20 "key not found"

def errDuplicateKey : GoError := .new 21 "key already exists"

def errAuthentication : GoError := .new 22 "could not decrypt key with given password"

def errUnsupportedFormat : GoError := .new 27 "unsupported key file version"

/-- State of the in-memory application: the stored keys, the keys `Create`
will hand out next, and the IDs of the undismissed job errors. -/
structure MemState where
  keys : List KeyV2
  fresh : List KeyV2
  jobErrors : List Int
  deriving DecidableEq, Repr

/-- The low byte of each character of a text. -/
def textBytes (text : String) : Bytes := text.data.map (fun ch => UInt8.ofNat ch.toNat)

/-- Envelope codec of the in-memory store: the format version 1, the bytes of
the password, a zero byte, then the bytes of the peer ID. -/
def memSeal (password : String) (id : PeerID) : Bytes :=
  1 :: (textBytes password ++ 0 :: textBytes id.raw)

/-- An in-memory application: keys are looked up by peer ID; `Import` refuses
an envelope whose format version is not 1 as unsupported, accepts exactly the
envelopes `memSeal` makes for a key waiting in `fresh`, and refuses every other
envelope (sealed under another password, or altered) with the one
authentication error. -/
def memApp : Application MemState where
  GetAll := fun s => (.ok s.keys, s)
  Create := fun s =>
    match s.fresh with
    | [] => (.error (.new 24 "no entropy"), s)
    | k :: rest => (.ok k, { s with keys := s.keys ++ [k], fresh := rest })
  Get := fun s id =>
    match s.keys.find? (fun k => decide (k.PeerID = id)) with
    | some k => (.ok k, s)
    | none => (.error errKeyNotFound, s)
  Delete := fun s id =>
    match s.keys.find? (fun k => decide (k.PeerID = id)) with
    | some k => (.ok k, { s with keys := s.keys.filter (fun k => decide (k.PeerID ≠ id)) })
    | none => (.error errKeyNotFound, s)
  Import := fun s keyJSON password =>
    if keyJSON.head? ≠ some 1 then (.error errUnsupportedFormat, s)
    else
      match s.fresh.find? (fun k => decide (memSeal password k.PeerID = keyJSON)) with
      | none => (.error errAuthentication, s)
      | some k =>
        if s.keys.any (fun k2 => decide (k2.PeerID = k.PeerID)) then (.error errDuplicateKey, s)
        else (.ok k, { s with keys := s.keys ++ [k] })
  Export := fun s id password =>
    match s.keys.find? (fun k => decide (k.PeerID = id)) with
    | some k => (.ok (memSeal password k.PeerID), s)
    | none => (.error errKeyNotFound, s)
  DismissError := fun s id =>
    if id ∈ s.jobErrors then (none, { s with jobErrors := s.jobErrors.filter (fun j => decide (j ≠ id)) })
    else (some (.wrap "DismissError failed" sqlErrNoRows), s)

def keyA : KeyV2 :=
  { PublicKeyHex := "a1b2", ID := "idA", PeerID := ⟨"peerA"⟩, KeyType := "P2P" }

def keyB : KeyV2 :=
  { PublicKeyHex := "c3d4", ID := "idB", PeerID := ⟨"peerB"⟩, KeyType := "P2P" }

/-- A store holding `keyA`, with `keyB` next to be created or imported. -/
def memState0 : MemState := { keys := [keyA], fresh := [keyB], jobErrors := [7] }

/-- A request with the given path parameters, query values and body. -/
def mkContext (params query : List (String × String)) (body : Bytes) : Context :=
  { Params := params, QueryValues := query, Body := .ok body }

/-- A request that serves all handlers: both path parameters name `keyA`, the
body is the envelope of `keyB` under the password in the query. -/
def demoContext : Context :=
  mkContext [("keyID", "peerA"), ("ID", "peerA")]
    [("oldpassword", "pw"), ("newpassword", "pw")] (memSeal "pw" ⟨"peerB"⟩)

/-! ## Properties of a store and of a trace used in the statements -/

/-- The store contract on deletion: after `Delete(id)` succeeds, `Get(id)` fails. -/
def DeleteThenGetFails {σ : Type} (app : Application σ) : Prop :=
  ∀ s id removed s1, app.Delete s id = (.ok removed, s1) →
    ∃ err s2, app.Get s1 id = (.error err, s2)

/-- The key `Get(id)` returns has peer ID `id`. -/
def GetReturnsRequested {σ : Type} (app : Application σ) : Prop :=
  ∀ s id key s1, app.Get s id = (.ok key, s1) → key.PeerID = id

/-- A store over the list of present peer IDs in which every present ID is an
alias of `keyA`: `Get` of a present ID returns `keyA`, `Delete` of a present ID
removes that ID. It serves to exercise a Delete that fails after a Get that
succeeded. -/
def aliasApp : Application (List PeerID) where
  GetAll := fun s => (.ok (s.map (fun _ => keyA)), s)
  Create := fun s => (.error (.new 24 "no entropy"), s)
  Get := fun s id => if id ∈ s then (.ok keyA, s) else (.error errKeyNotFound, s)
  Delete := fun s id =>
    if id ∈ s then (.ok keyA, s.filter (fun x => decide (x ≠ id))) else (.error errKeyNotFound, s)
  Import := fun s _ _ => (.error errAuthentication, s)
  Export := fun s id _ => if id ∈ s then (.ok [], s) else (.error errKeyNotFound, s)
  DismissError := fun s _ => (some sqlErrNoRows, s)

/-- The calls of a trace, without their outcome. -/
def callNamesOf (tr : List Effect) : List Call := (callsOf tr).map Prod.fst

/-- The query values other than those of the `hard` parameter. -/
def withoutHard (query : List (String × String)) : List (String × String) :=
  query.filter (fun kv => kv.1 != "hard")

/-- The trace writes exactly one response, an error or a success response. -/
def OneResponse (tr : List Effect) : Prop :=
  (responsesOf tr).length = 1 ∧ respondedSuccess tr = !respondedError tr

/-- Every call of `tr` that returned an error is followed by no further call,
and `responses` is a single error response carrying that error. -/
def PropagatesErrorsTo (responses : List Response) (tr : List Effect) : Prop :=
  ∀ pre post c err, tr = pre ++ Effect.call c (some err) :: post →
    callsOf post = [] ∧ ∃ status, responses = [Response.apiError status err]

/-- Every call of the trace that returned an error is followed by no further
call, and the single response of the trace is an error response carrying that
error. -/
def PropagatesErrors (tr : List Effect) : Prop := PropagatesErrorsTo (responsesOf tr) tr

/-- The error message a response shows: the text of the error of an error
response, nothing for a success response. -/
def Response.message : Response → Option String
  | .apiError _ err => some err.Error
  | _ => none

/-- What the user sees of the responses of a trace: status and error message. -/
def visibleResponses (tr : List Effect) : List (Nat × Option String) :=
  (responsesOf tr).map (fun r => (r.status, r.message))

/-! ## The import path of the key store, from the spec -/

/-- Modelled from the spec: the error kind `AuthenticationError` (passphrase or
integrity failure on open) of the key store, which is not among the source
files; one error value with one message, whatever the cause. -/
def AuthenticationError : GoError := .new 30 "AuthenticationError"

/-- Modelled from the spec: the error kind `UnsupportedFormatError` (unknown
envelope version) of the key store, which is not among the source files. -/
def UnsupportedFormatError : GoError := .new 31 "UnsupportedFormatError"

/-- Modelled from the spec: the error kind `DuplicateKeyError` (import collides
with an existing peerID) of the key store, which is not among the source
files. -/
def DuplicateKeyError : GoError := .new 32 "DuplicateKeyError"

/-- Modelled from the spec: the error kind `PersistenceError` (durable-storage
failure) of the key store, which is not among the source files. -/
def PersistenceError : GoError := .new 33 "PersistenceError"

/-- Modelled from the spec: the data type `EncryptedEnvelope`, which is not
among the source files: format version, key-derivation parameters, cipher
parameters and ciphertext. -/
structure EncryptedEnvelope where
  formatVersion : Nat
  kdfParams : Bytes
  cipherParams : Bytes
  ciphertext : Bytes
  deriving DecidableEq, Repr

/-- Modelled from the spec: the component `PassphraseCipher`, which is not
among the source files. `deriveKey passphrase kdfParams` is the symmetric key;
`decrypt ciphertext symmetricKey cipherParams` is the plaintext, or `none`
when the integrity tag does not verify (wrong passphrase or corrupted data). -/
structure PassphraseCipher where
  deriveKey : String → Bytes → Bytes
  decrypt : Bytes → Bytes → Bytes → Option Bytes

/-- Modelled from the spec: the serialization of `EncryptedEnvelope` and of the
key material, which is not among the source files and whose layout the spec
leaves open: the envelope a byte string denotes, the format versions known,
and the key a decrypted payload denotes. -/
structure EnvelopeFormat where
  decode : Bytes → EncryptedEnvelope
  supported : Nat → Bool
  deserialize : Bytes → KeyV2

/-- The integrity tag of the envelope does not verify under the key derived
from the passphrase. -/
@[reducible]
def tagFails (cipher : PassphraseCipher) (envelope : EncryptedEnvelope) (passphrase : String) :
    Prop :=
  cipher.decrypt envelope.ciphertext (cipher.deriveKey passphrase envelope.kdfParams)
    envelope.cipherParams = none

/-- Modelled from the spec: the operation `open(envelope, passphrase)` of
`EncryptedEnvelope`, which is not among the source files: an unknown
`formatVersion` is rejected outright with `UnsupportedFormatError`; otherwise
the symmetric key is re-derived from the stored `kdfParams`, the ciphertext is
decrypted (`AuthenticationError` on bad passphrase or corruption) and the
payload deserialized. -/
def openEnvelope (cipher : PassphraseCipher) (format : EnvelopeFormat)
    (envelope : EncryptedEnvelope) (passphrase : String) : Except GoError KeyV2 :=
  if format.supported envelope.formatVersion then
    match cipher.decrypt envelope.ciphertext (cipher.deriveKey passphrase envelope.kdfParams)
        envelope.cipherParams with
    | none => .error AuthenticationError
    | some plaintext => .ok (format.deserialize plaintext)
  else .error UnsupportedFormatError

/-- Modelled from the spec: the operation `Import(envelopeBytes, oldPassphrase)`
of the key store, which is not among the source files, over the stored keys:
the envelope is opened first; then the import fails with `DuplicateKeyError`
if the peerID already exists; otherwise the key is persisted (`persist` tells
whether the durable write succeeded, `PersistenceError` if not) and inserted.
A failed import leaves the store unchanged. -/
def specImport (cipher : PassphraseCipher) (format : EnvelopeFormat) (persist : KeyV2 → Bool)
    (keys : List KeyV2) (envelopeBytes : Bytes) (oldPassphrase : String) :
    Except GoError KeyV2 × List KeyV2 :=
  match openEnvelope cipher format (format.decode envelopeBytes) oldPassphrase with
  | .error err => (.error err, keys)
  | .ok key =>
    if keys.any (fun k => decide (k.PeerID = key.PeerID)) then (.error DuplicateKeyError, keys)
    else if persist key then (.ok key, keys ++ [key])
    else (.error PersistenceError, keys)

/-- An application over the stored keys whose `Import` is `specImport`; the
other methods are those of `base`. -/
def specStore (cipher : PassphraseCipher) (format : EnvelopeFormat) (persist : KeyV2 → Bool)
    (base : Application (List KeyV2)) : Application (List KeyV2) :=
  { base with Import := specImport cipher format persist }

/-- A cipher for exercising the import path: the key is the bytes of the
passphrase followed by the salt, a ciphertext is the key followed by the
plaintext, and the tag verifies when the ciphertext starts with the key. -/
def toyCipher : PassphraseCipher where
  deriveKey := fun passphrase kdfParams => textBytes passphrase ++ kdfParams
  decrypt := fun ciphertext symmetricKey _ =>
    if symmetricKey.isPrefixOf ciphertext then some (ciphertext.drop symmetricKey.length)
    else none

/-- A serialization for exercising the import path: one byte of format
version (only version 1 is known), one byte of salt, then the ciphertext; a
payload that is the bytes of the peer ID of `keyB` denotes `keyB`, any other
payload `keyA`. -/
def toyFormat : EnvelopeFormat where
  decode := fun bytes =>
    match bytes with
    | version :: salt :: ciphertext =>
      { formatVersion := version.toNat, kdfParams := [salt], cipherParams := [],
        ciphertext := ciphertext }
    | _ => { formatVersion := 0, kdfParams := [], cipherParams := [], ciphertext := [] }
  supported := fun version => version == 1
  deserialize := fun plaintext => if plaintext = textBytes "peerB" then keyB else keyA

/-- The envelope of `keyB` under the passphrase `pw` with salt 5 in `toyFormat`. -/
def toyEnvelopeB : Bytes := 1 :: 5 :: (textBytes "pw" ++ [5] ++ textBytes "peerB")

/-- The envelope `toyEnvelopeB` with the first byte of its ciphertext altered. -/
def toyEnvelopeBCorrupted : Bytes := 1 :: 5 :: (textBytes "Pw" ++ [5] ++ textBytes "peerB")

/-- The in-memory key store with the import path of the spec over `toyCipher`
and `toyFormat`, every durable write succeeding. -/
def toyStore : Application (List KeyV2) :=
  specStore toyCipher toyFormat (fun _ => true)
    { GetAll := fun keys => (.ok keys, keys)
      Create := fun keys => (.error (.new 24 "no entropy"), keys)
      Get := fun keys id =>
        match keys.find? (fun k => decide (k.PeerID = id)) with
        | some k => (.ok k, keys)
        | none => (.error errKeyNotFound, keys)
      Delete := fun keys id =>
        match keys.find? (fun k => decide (k.PeerID = id)) with
        | some k => (.ok k, keys.filter (fun k2 => decide (k2.PeerID ≠ id)))
        | none => (.error errKeyNotFound, keys)
      Import := fun keys _ _ => (.error AuthenticationError, keys)
      Export := fun keys _ _ => (.error errKeyNotFound, keys)
      DismissError := fun keys _ => (none, keys) }

/-- What `Destroy` is expected to show, as a function of the outcome of `SetID`
and of the outcome of `DismissError` on the parsed ID: the status of its one
response, the calls made and the audit events emitted. -/
def destroyExpected (setID : Except GoError Int) (dismiss : Int → Option GoError) :
    List Nat × List Call × List (EventID × List (String × AuditValue)) :=
  match setID with
  | .error _ => ([422], [], [])
  | .ok id =>
    match dismiss id with
    | none => ([204], [.DismissError id], [(.JobErrorDismissed, [("id", .int id)])])
    | some err =>
      if err.Is sqlErrNoRows then ([404], [.DismissError id], [])
      else ([500], [.DismissError id], [])

/-- The statuses of the responses, the calls and the audit events of a trace. -/
def observe (tr : List Effect) : List Nat × List Call × List (EventID × List (String × AuditValue)) :=
  ((responsesOf tr).map Response.status, callNamesOf tr, auditsOf tr)

end Chainlink

namespace Chainlink

/-! ## The paths of the handlers -/

theorem Index_error {σ : Type} (app : Application σ) (c : Context) (s s1 : σ) (err : GoError)
    (h : app.GetAll s = (.error err, s1)) :
    P2PKeysController.Index app c s =
      (s1, [.call .GetAll (some err), .respond (.apiError 500 err)]) := by
  simp [P2PKeysController.Index, h, jsonAPIError, StatusInternalServerError]

theorem Index_ok {σ : Type} (app : Application σ) (c : Context) (s s1 : σ) (keys : List KeyV2)
    (h : app.GetAll s = (.ok keys, s1)) :
    P2PKeysController.Index app c s =
      (s1, [.call .GetAll none, .respond (.apiResource 200 (.p2pKeys keys) "p2pKey")]) := by
  simp [P2PKeysController.Index, h, jsonAPIResponse, jsonAPIResponseWithStatus, StatusOK,
    NewP2PKeyResources]

theorem Create_error {σ : Type} (app : Application σ) (c : Context) (s s1 : σ) (err : GoError)
    (h : app.Create s = (.error err, s1)) :
    P2PKeysController.Create app c s =
      (s1, [.call .Create (some err), .respond (.apiError 500 err)]) := by
  simp [P2PKeysController.Create, h, jsonAPIError, StatusInternalServerError]

theorem Create_ok {σ : Type} (app : Application σ) (c : Context) (s s1 : σ) (key : KeyV2)
    (h : app.Create s = (.ok key, s1)) :
    P2PKeysController.Create app c s =
      (s1, [.call .Create none,
            .audit .P2PKeyCreated
              [("p2pPublicKey", .str key.PublicKeyHex), ("p2pID", .str key.ID),
               ("p2pPeerID", .peerID key.PeerID), ("p2pType", .str key.KeyType)],
            .respond (.apiResource 200 (.p2pKey key) "p2pKey")]) := by
  simp [P2PKeysController.Create, h, jsonAPIResponse, jsonAPIResponseWithStatus, StatusOK,
    NewP2PKeyResource]

theorem Delete_invalid {σ : Type} (pkg : Packages) (app : Application σ) (c : Context) (s : σ)
    (err : GoError) (h : pkg.MakePeerID (c.Param "keyID") = .error err) :
    P2PKeysController.Delete pkg app c s = (s, [.respond (.apiError 422 err)]) := by
  simp [P2PKeysController.Delete, h, jsonAPIError, StatusUnprocessableEntity]

theorem Delete_absent {σ : Type} (pkg : Packages) (app : Application σ) (c : Context) (s s1 : σ)
    (keyID : PeerID) (err : GoError) (h : pkg.MakePeerID (c.Param "keyID") = .ok keyID)
    (hget : app.Get s keyID = (.error err, s1)) :
    P2PKeysController.Delete pkg app c s =
      (s1, [.call (.Get keyID) (some err), .respond (.apiError 404 err)]) := by
  simp [P2PKeysController.Delete, h, hget, jsonAPIError, StatusNotFound]

theorem Delete_failed {σ : Type} (pkg : Packages) (app : Application σ) (c : Context)
    (s s1 s2 : σ) (keyID : PeerID) (key : KeyV2) (err : GoError)
    (h : pkg.MakePeerID (c.Param "keyID") = .ok keyID)
    (hget : app.Get s keyID = (.ok key, s1))
    (hdel : app.Delete s1 key.PeerID = (.error err, s2)) :
    P2PKeysController.Delete pkg app c s =
      (s2, [.call (.Get keyID) none, .call (.Delete key.PeerID) (some err),
            .respond (.apiError 500 err)]) := by
  simp [P2PKeysController.Delete, h, hget, hdel, jsonAPIError, StatusInternalServerError]

theorem Delete_ok {σ : Type} (pkg : Packages) (app : Application σ) (c : Context)
    (s s1 s2 : σ) (keyID : PeerID) (key removed : KeyV2)
    (h : pkg.MakePeerID (c.Param "keyID") = .ok keyID)
    (hget : app.Get s keyID = (.ok key, s1))
    (hdel : app.Delete s1 key.PeerID = (.ok removed, s2)) :
    P2PKeysController.Delete pkg app c s =
      (s2, [.call (.Get keyID) none, .call (.Delete key.PeerID) none,
            .audit .P2PKeyDeleted [("id", .peerID keyID)],
            .respond (.apiResource 200 (.p2pKey key) "p2pKey")]) := by
  simp [P2PKeysController.Delete, h, hget, hdel, jsonAPIResponse, jsonAPIResponseWithStatus,
    StatusOK, NewP2PKeyResource]

theorem Import_unreadable {σ : Type} (app : Application σ) (c : Context) (s : σ) (err : GoError)
    (h : c.Body = .error err) :
    P2PKeysController.Import app c s =
      (s, [.respond (.apiError 400 err), .errorIfClosing "Import "]) := by
  simp [P2PKeysController.Import, h, jsonAPIError, StatusBadRequest]

theorem Import_failed {σ : Type} (app : Application σ) (c : Context) (s s1 : σ) (bytes : Bytes)
    (err : GoError) (h : c.Body = .ok bytes)
    (himp : app.Import s bytes (c.Query "oldpassword") = (.error err, s1)) :
    P2PKeysController.Import app c s =
      (s1, [.call (.Import bytes (c.Query "oldpassword")) (some err),
            .respond (.apiError 500 err), .errorIfClosing "Import "]) := by
  simp [P2PKeysController.Import, h, himp, jsonAPIError, StatusInternalServerError]

theorem Import_ok {σ : Type} (app : Application σ) (c : Context) (s s1 : σ) (bytes : Bytes)
    (key : KeyV2) (h : c.Body = .ok bytes)
    (himp : app.Import s bytes (c.Query "oldpassword") = (.ok key, s1)) :
    P2PKeysController.Import app c s =
      (s1, [.call (.Import bytes (c.Query "oldpassword")) none,
            .audit .P2PKeyImported
              [("p2pPublicKey", .str key.PublicKeyHex), ("p2pID", .str key.ID),
               ("p2pPeerID", .peerID key.PeerID), ("p2pType", .str key.KeyType)],
            .respond (.apiResource 200 (.p2pKey key) "p2pKey"),
            .errorIfClosing "Import "]) := by
  simp [P2PKeysController.Import, h, himp, jsonAPIResponse, jsonAPIResponseWithStatus, StatusOK,
    NewP2PKeyResource]

theorem Export_invalid {σ : Type} (pkg : Packages) (app : Application σ) (c : Context) (s : σ)
    (err : GoError) (h : pkg.MakePeerID (c.Param "ID") = .error err) :
    P2PKeysController.Export pkg app c s =
      (s, [.respond (.apiError 422 err), .errorIfClosing "Export request body"]) := by
  simp [P2PKeysController.Export, h, jsonAPIError, StatusUnprocessableEntity]

theorem Export_failed {σ : Type} (pkg : Packages) (app : Application σ) (c : Context)
    (s s1 : σ) (keyID : PeerID) (err : GoError) (h : pkg.MakePeerID (c.Param "ID") = .ok keyID)
    (hexp : app.Export s keyID (c.Query "newpassword") = (.error err, s1)) :
    P2PKeysController.Export pkg app c s =
      (s1, [.call (.Export keyID (c.Query "newpassword")) (some err),
            .respond (.apiError 500 err), .errorIfClosing "Export request body"]) := by
  simp [P2PKeysController.Export, h, hexp, jsonAPIError, StatusInternalServerError]

theorem Export_ok {σ : Type} (pkg : Packages) (app : Application σ) (c : Context)
    (s s1 : σ) (keyID : PeerID) (bytes : Bytes) (h : pkg.MakePeerID (c.Param "ID") = .ok keyID)
    (hexp : app.Export s keyID (c.Query "newpassword") = (.ok bytes, s1)) :
    P2PKeysController.Export pkg app c s =
      (s1, [.call (.Export keyID (c.Query "newpassword")) none,
            .audit .P2PKeyExported [("keyID", .peerID keyID)],
            .respond (.data 200 pkg.MediaType bytes),
            .errorIfClosing "Export request body"]) := by
  simp [P2PKeysController.Export, h, hexp, StatusOK]

/-! ## Error propagation along a trace -/

theorem callsOf_append_call_ne_nil (pre post : List Effect) (c : Call) (err : Option GoError) :
    callsOf (pre ++ Effect.call c err :: post) ≠ [] := by
  induction pre with
  | nil => simp [callsOf]
  | cons x pre ih =>
    cases x <;> simp [callsOf, ih]

theorem propagates_nil (responses : List Response) : PropagatesErrorsTo responses [] := by
  intro pre post c err h
  cases pre <;> simp at h

theorem propagates_failed_call (responses : List Response) (tr : List Effect) (c : Call)
    (err : GoError) (status : Nat) (hcalls : callsOf tr = [])
    (hresp : responses = [Response.apiError status err]) :
    PropagatesErrorsTo responses (Effect.call c (some err) :: tr) := by
  intro pre post c2 err2 h
  cases pre with
  | nil =>
    simp only [List.nil_append, List.cons.injEq, Effect.call.injEq, Option.some.injEq] at h
    obtain ⟨⟨_, rfl⟩, rfl⟩ := h
    exact ⟨hcalls, status, hresp⟩
  | cons x pre =>
    simp only [List.cons_append, List.cons.injEq] at h
    exact absurd (h.2 ▸ hcalls) (callsOf_append_call_ne_nil pre post c2 (some err2))

theorem propagates_cons (responses : List Response) (tr : List Effect) (x : Effect)
    (hx : ∀ c err, x ≠ Effect.call c (some err)) (h : PropagatesErrorsTo responses tr) :
    PropagatesErrorsTo responses (x :: tr) := by
  intro pre post c err heq
  cases pre with
  | nil =>
    simp only [List.nil_append, List.cons.injEq] at heq
    exact absurd heq.1 (hx c err)
  | cons y pre =>
    simp only [List.cons_append, List.cons.injEq] at heq
    exact h pre post c err heq.2

/-! ## Audit events and responses -/

/-- C1: each of Create, Delete, Import and Export emits exactly one audit event
when the key-store operation of the same name succeeds, which is exactly when
its single response is a success, and emits no audit event otherwise, which is
exactly when its single response is an error response. -/
theorem audit_exactly_on_success {σ : Type} (pkg : Packages) (app : Application σ)
    (c : Context) (s : σ) :
    AuditOnlyOnSuccess Call.isCreate (P2PKeysController.Create app c s).2 ∧
    AuditOnlyOnSuccess Call.isDelete (P2PKeysController.Delete pkg app c s).2 ∧
    AuditOnlyOnSuccess Call.isImport (P2PKeysController.Import app c s).2 ∧
    AuditOnlyOnSuccess Call.isExport (P2PKeysController.Export pkg app c s).2 := by
  refine ⟨?_, ?_, ?_, ?_⟩
  · rcases h : app.Create s with ⟨err | key, s1⟩
    · rw [Create_error app c s s1 err h]
      simp [AuditOnlyOnSuccess, auditsOf, responsesOf, callsOf, respondedSuccess,
        respondedError, callSucceeded, Call.isCreate, Response.isError]
    · rw [Create_ok app c s s1 key h]
      simp [AuditOnlyOnSuccess, auditsOf, responsesOf, callsOf, respondedSuccess,
        respondedError, callSucceeded, Call.isCreate, Response.isError]
  · rcases h : pkg.MakePeerID (c.Param "keyID") with err | keyID
    · rw [Delete_invalid pkg app c s err h]
      simp [AuditOnlyOnSuccess, auditsOf, responsesOf, callsOf, respondedSuccess,
        respondedError, callSucceeded, Response.isError]
    · rcases hget : app.Get s keyID with ⟨err | key, s1⟩
      · rw [Delete_absent pkg app c s s1 keyID err h hget]
        simp [AuditOnlyOnSuccess, auditsOf, responsesOf, callsOf, respondedSuccess,
          respondedError, callSucceeded, Call.isDelete, Response.isError]
      · rcases hdel : app.Delete s1 key.PeerID with ⟨err | removed, s2⟩
        · rw [Delete_failed pkg app c s s1 s2 keyID key err h hget hdel]
          simp [AuditOnlyOnSuccess, auditsOf, responsesOf, callsOf, respondedSuccess,
            respondedError, callSucceeded, Call.isDelete, Response.isError]
        · rw [Delete_ok pkg app c s s1 s2 keyID key removed h hget hdel]
          simp [AuditOnlyOnSuccess, auditsOf, responsesOf, callsOf, respondedSuccess,
            respondedError, callSucceeded, Call.isDelete, Response.isError]
  · rcases h : c.Body with err | bytes
    · rw [Import_unreadable app c s err h]
      simp [AuditOnlyOnSuccess, auditsOf, responsesOf, callsOf, respondedSuccess,
        respondedError, callSucceeded, Response.isError]
    · rcases himp : app.Import s bytes (c.Query "oldpassword") with ⟨err | key, s1⟩
      · rw [Import_failed app c s s1 bytes err h himp]
        simp [AuditOnlyOnSuccess, auditsOf, responsesOf, callsOf, respondedSuccess,
          respondedError, callSucceeded, Call.isImport, Response.isError]
      · rw [Import_ok app c s s1 bytes key h himp]
        simp [AuditOnlyOnSuccess, auditsOf, responsesOf, callsOf, respondedSuccess,
          respondedError, callSucceeded, Call.isImport, Response.isError]
  · rcases h : pkg.MakePeerID (c.Param "ID") with err | keyID
    · rw [Export_invalid pkg app c s err h]
      simp [AuditOnlyOnSuccess, auditsOf, responsesOf, callsOf, respondedSuccess,
        respondedError, callSucceeded, Response.isError]
    · rcases hexp : app.Export s keyID (c.Query "newpassword") with ⟨err | bytes, s1⟩
      · rw [Export_failed pkg app c s s1 keyID err h hexp]
        simp [AuditOnlyOnSuccess, auditsOf, responsesOf, callsOf, respondedSuccess,
          respondedError, callSucceeded, Call.isExport, Response.isError]
      · rw [Export_ok pkg app c s s1 keyID bytes h hexp]
        simp [AuditOnlyOnSuccess, auditsOf, responsesOf, callsOf, respondedSuccess,
          respondedError, callSucceeded, Call.isExport, Response.isError]

/-- C2 (as stated, refuted for Export): in the in-memory store the key with
peer ID `peerA` has public key `a1b2` and type `P2P`; a successful Export of it
emits one audit event whose only entry is the peer ID, so the event carries
neither the public key nor the key type. -/
theorem export_audit_omits_key_fields :
    (memApp.Get memState0 ⟨"peerA"⟩).1 = .ok keyA ∧
    respondedSuccess (P2PKeysController.Export demoPackages memApp demoContext memState0).2
      = true ∧
    auditsOf (P2PKeysController.Export demoPackages memApp demoContext memState0).2
      = [(.P2PKeyExported, [("keyID", .peerID ⟨"peerA"⟩)])] ∧
    ((auditsOf (P2PKeysController.Export demoPackages memApp demoContext memState0).2).all
      (fun ev => !carries ev.2 (.str keyA.PublicKeyHex) && !carries ev.2 (.str keyA.KeyType)))
      = true := by
  decide

/-- C2 (amended): the audit event of a successful Create or Import carries the
public key, the ID, the peer ID and the type of the key the store returned; the
audit event of a successful Delete or Export carries the requested peer ID and
nothing else. -/
theorem audit_payload {σ : Type} (pkg : Packages) (app : Application σ) (c : Context) (s : σ) :
    (∀ key s1, app.Create s = (.ok key, s1) →
      auditsOf (P2PKeysController.Create app c s).2 =
        [(.P2PKeyCreated,
          [("p2pPublicKey", .str key.PublicKeyHex), ("p2pID", .str key.ID),
           ("p2pPeerID", .peerID key.PeerID), ("p2pType", .str key.KeyType)])]) ∧
    (∀ bytes key s1, c.Body = .ok bytes →
      app.Import s bytes (c.Query "oldpassword") = (.ok key, s1) →
      auditsOf (P2PKeysController.Import app c s).2 =
        [(.P2PKeyImported,
          [("p2pPublicKey", .str key.PublicKeyHex), ("p2pID", .str key.ID),
           ("p2pPeerID", .peerID key.PeerID), ("p2pType", .str key.KeyType)])]) ∧
    (∀ keyID key s1 removed s2, pkg.MakePeerID (c.Param "keyID") = .ok keyID →
      app.Get s keyID = (.ok key, s1) → app.Delete s1 key.PeerID = (.ok removed, s2) →
      auditsOf (P2PKeysController.Delete pkg app c s).2 =
        [(.P2PKeyDeleted, [("id", .peerID keyID)])]) ∧
    (∀ keyID bytes s1, pkg.MakePeerID (c.Param "ID") = .ok keyID →
      app.Export s keyID (c.Query "newpassword") = (.ok bytes, s1) →
      auditsOf (P2PKeysController.Export pkg app c s).2 =
        [(.P2PKeyExported, [("keyID", .peerID keyID)])]) := by
  refine ⟨?_, ?_, ?_, ?_⟩
  · intro key s1 h
    rw [Create_ok app c s s1 key h]
    simp [auditsOf]
  · intro bytes key s1 h himp
    rw [Import_ok app c s s1 bytes key h himp]
    simp [auditsOf]
  · intro keyID key s1 removed s2 h hget hdel
    rw [Delete_ok pkg app c s s1 s2 keyID key removed h hget hdel]
    simp [auditsOf]
  · intro keyID bytes s1 h hexp
    rw [Export_ok pkg app c s s1 keyID bytes h hexp]
    simp [auditsOf]

theorem audit_payload_witness :
    auditsOf (P2PKeysController.Create memApp demoContext memState0).2 =
      [(.P2PKeyCreated,
        [("p2pPublicKey", .str "c3d4"), ("p2pID", .str "idB"),
         ("p2pPeerID", .peerID ⟨"peerB"⟩), ("p2pType", .str "P2P")])] ∧
    auditsOf (P2PKeysController.Import memApp demoContext memState0).2 =
      [(.P2PKeyImported,
        [("p2pPublicKey", .str "c3d4"), ("p2pID", .str "idB"),
         ("p2pPeerID", .peerID ⟨"peerB"⟩), ("p2pType", .str "P2P")])] ∧
    auditsOf (P2PKeysController.Delete demoPackages memApp demoContext memState0).2 =
      [(.P2PKeyDeleted, [("id", .peerID ⟨"peerA"⟩)])] ∧
    auditsOf (P2PKeysController.Export demoPackages memApp demoContext memState0).2 =
      [(.P2PKeyExported, [("keyID", .peerID ⟨"peerA"⟩)])] :=
  ⟨(audit_payload demoPackages memApp demoContext memState0).1 keyB
      { memState0 with keys := [keyA, keyB], fresh := [] } (by decide),
   (audit_payload demoPackages memApp demoContext memState0).2.1 (memSeal "pw" ⟨"peerB"⟩) keyB
      { memState0 with keys := [keyA, keyB] } (by decide) (by decide),
   (audit_payload demoPackages memApp demoContext memState0).2.2.1 ⟨"peerA"⟩ keyA memState0 keyA
      { memState0 with keys := [] } (by decide) (by decide) (by decide),
   (audit_payload demoPackages memApp demoContext memState0).2.2.2 ⟨"peerA"⟩
      (memSeal "pw" ⟨"peerA"⟩) memState0 (by decide) (by decide)⟩

/-! ## Delete -/

/-- C3: when the peer ID parses and the key store's Get returns an error, the
Delete handler answers 404 with that error, its only key-store call is that
Get (so the store's Delete is never invoked), it emits no audit event, and the
state it leaves is the one Get returned (the store itself when Get is a pure
lookup). -/
theorem delete_absent_key {σ : Type} (pkg : Packages) (app : Application σ) (c : Context)
    (s : σ) (keyID : PeerID) (err : GoError)
    (h : pkg.MakePeerID (c.Param "keyID") = .ok keyID)
    (hget : (app.Get s keyID).1 = .error err) :
    responsesOf (P2PKeysController.Delete pkg app c s).2 = [.apiError 404 err] ∧
    callsOf (P2PKeysController.Delete pkg app c s).2 = [(.Get keyID, some err)] ∧
    (callNamesOf (P2PKeysController.Delete pkg app c s).2).any Call.isDelete = false ∧
    auditsOf (P2PKeysController.Delete pkg app c s).2 = [] ∧
    (P2PKeysController.Delete pkg app c s).1 = (app.Get s keyID).2 ∧
    ((app.Get s keyID).2 = s → (P2PKeysController.Delete pkg app c s).1 = s) := by
  rcases hg : app.Get s keyID with ⟨r, s1⟩
  rw [hg] at hget
  simp only at hget
  subst hget
  rw [Delete_absent pkg app c s s1 keyID err h hg]
  simp [responsesOf, callsOf, auditsOf, callNamesOf, Call.isDelete]

theorem delete_absent_key_witness :
    responsesOf (P2PKeysController.Delete demoPackages memApp
      (mkContext [("keyID", "peerZ")] [] []) memState0).2 = [.apiError 404 errKeyNotFound] ∧
    (P2PKeysController.Delete demoPackages memApp
      (mkContext [("keyID", "peerZ")] [] []) memState0).1 = memState0 :=
  have h := delete_absent_key demoPackages memApp (mkContext [("keyID", "peerZ")] [] [])
    memState0 ⟨"peerZ"⟩ errKeyNotFound (by decide) (by decide)
  ⟨h.1, h.2.2.2.2.2 (by decide)⟩

/-- C10: when MakePeerID rejects the path parameter, Delete and Export each
answer 422 with that error, make no key-store call, emit no audit event and
leave the state as it was. -/
theorem invalid_peer_id_rejected {σ : Type} (pkg : Packages) (app : Application σ)
    (c : Context) (s : σ) :
    (∀ err, pkg.MakePeerID (c.Param "keyID") = .error err →
      responsesOf (P2PKeysController.Delete pkg app c s).2 = [.apiError 422 err] ∧
      callsOf (P2PKeysController.Delete pkg app c s).2 = [] ∧
      auditsOf (P2PKeysController.Delete pkg app c s).2 = [] ∧
      (P2PKeysController.Delete pkg app c s).1 = s) ∧
    (∀ err, pkg.MakePeerID (c.Param "ID") = .error err →
      responsesOf (P2PKeysController.Export pkg app c s).2 = [.apiError 422 err] ∧
      callsOf (P2PKeysController.Export pkg app c s).2 = [] ∧
      auditsOf (P2PKeysController.Export pkg app c s).2 = [] ∧
      (P2PKeysController.Export pkg app c s).1 = s) := by
  constructor
  · intro err h
    rw [Delete_invalid pkg app c s err h]
    simp [responsesOf, callsOf, auditsOf]
  · intro err h
    rw [Export_invalid pkg app c s err h]
    simp [responsesOf, callsOf, auditsOf]

theorem invalid_peer_id_rejected_witness :
    (responsesOf (P2PKeysController.Delete demoPackages memApp
        (mkContext [] [] []) memState0).2 = [.apiError 422 (.new 10 "invalid peer ID")] ∧
      callsOf (P2PKeysController.Delete demoPackages memApp (mkContext [] [] []) memState0).2
        = [] ∧
      auditsOf (P2PKeysController.Delete demoPackages memApp (mkContext [] [] []) memState0).2
        = [] ∧
      (P2PKeysController.Delete demoPackages memApp (mkContext [] [] []) memState0).1
        = memState0) ∧
    (responsesOf (P2PKeysController.Export demoPackages memApp
        (mkContext [] [] []) memState0).2 = [.apiError 422 (.new 10 "invalid peer ID")] ∧
      callsOf (P2PKeysController.Export demoPackages memApp (mkContext [] [] []) memState0).2
        = [] ∧
      auditsOf (P2PKeysController.Export demoPackages memApp (mkContext [] [] []) memState0).2
        = [] ∧
      (P2PKeysController.Export demoPackages memApp (mkContext [] [] []) memState0).1
        = memState0) :=
  ⟨(invalid_peer_id_rejected demoPackages memApp (mkContext [] [] []) memState0).1
      (.new 10 "invalid peer ID") (by decide),
   (invalid_peer_id_rejected demoPackages memApp (mkContext [] [] []) memState0).2
      (.new 10 "invalid peer ID") (by decide)⟩

/-- C5: two requests that differ only in the value or presence of the `hard`
query parameter get, on the same state, the same result from the Delete
handler: the same final state and the same effects in the same order (the same
key-store calls with the same outcomes, the same audit event, the same
response). -/
theorem delete_ignores_hard {σ : Type} (pkg : Packages) (app : Application σ)
    (c1 c2 : Context) (s : σ) (hp : c1.Params = c2.Params) (hb : c1.Body = c2.Body)
    (hq : withoutHard c1.QueryValues = withoutHard c2.QueryValues) :
    P2PKeysController.Delete pkg app c1 s = P2PKeysController.Delete pkg app c2 s := by
  have _ := hb
  have _ := hq
  unfold P2PKeysController.Delete Context.Param
  rw [hp]

theorem delete_ignores_hard_witness :
    P2PKeysController.Delete demoPackages memApp
        (mkContext [("keyID", "peerA")] [("hard", "true")] []) memState0 =
      P2PKeysController.Delete demoPackages memApp
        (mkContext [("keyID", "peerA")] [] []) memState0 :=
  delete_ignores_hard demoPackages memApp (mkContext [("keyID", "peerA")] [("hard", "true")] [])
    (mkContext [("keyID", "peerA")] [] []) memState0 rfl rfl (by decide)

/-! ## One response, errors propagated -/

/-- C7: every handler of P2PKeysController writes exactly one response, an
error or a success response and not both; and whenever a key-store call it
made returned an error, no key-store call follows it and the response is an
error response carrying that error. -/
theorem one_response_errors_propagated {σ : Type} (pkg : Packages) (app : Application σ)
    (c : Context) (s : σ) :
    (OneResponse (P2PKeysController.Index app c s).2 ∧
      PropagatesErrors (P2PKeysController.Index app c s).2) ∧
    (OneResponse (P2PKeysController.Create app c s).2 ∧
      PropagatesErrors (P2PKeysController.Create app c s).2) ∧
    (OneResponse (P2PKeysController.Delete pkg app c s).2 ∧
      PropagatesErrors (P2PKeysController.Delete pkg app c s).2) ∧
    (OneResponse (P2PKeysController.Import app c s).2 ∧
      PropagatesErrors (P2PKeysController.Import app c s).2) ∧
    (OneResponse (P2PKeysController.Export pkg app c s).2 ∧
      PropagatesErrors (P2PKeysController.Export pkg app c s).2) := by
  refine ⟨?_, ?_, ?_, ?_, ?_⟩
  · rcases h : app.GetAll s with ⟨err | keys, s1⟩
    · rw [Index_error app c s s1 err h]
      refine ⟨by simp [OneResponse, responsesOf, respondedSuccess, respondedError,
        Response.isError], ?_⟩
      exact propagates_failed_call _ _ _ err 500 (by simp [callsOf]) (by simp [responsesOf])
    · rw [Index_ok app c s s1 keys h]
      refine ⟨by simp [OneResponse, responsesOf, respondedSuccess, respondedError,
        Response.isError], ?_⟩
      exact propagates_cons _ _ _ (by simp) (propagates_cons _ _ _ (by simp) (propagates_nil _))
  · rcases h : app.Create s with ⟨err | key, s1⟩
    · rw [Create_error app c s s1 err h]
      refine ⟨by simp [OneResponse, responsesOf, respondedSuccess, respondedError,
        Response.isError], ?_⟩
      exact propagates_failed_call _ _ _ err 500 (by simp [callsOf]) (by simp [responsesOf])
    · rw [Create_ok app c s s1 key h]
      refine ⟨by simp [OneResponse, responsesOf, respondedSuccess, respondedError,
        Response.isError], ?_⟩
      exact propagates_cons _ _ _ (by simp) (propagates_cons _ _ _ (by simp)
        (propagates_cons _ _ _ (by simp) (propagates_nil _)))
  · rcases h : pkg.MakePeerID (c.Param "keyID") with err | keyID
    · rw [Delete_invalid pkg app c s err h]
      refine ⟨by simp [OneResponse, responsesOf, respondedSuccess, respondedError,
        Response.isError], ?_⟩
      exact propagates_cons _ _ _ (by simp) (propagates_nil _)
    · rcases hget : app.Get s keyID with ⟨err | key, s1⟩
      · rw [Delete_absent pkg app c s s1 keyID err h hget]
        refine ⟨by simp [OneResponse, responsesOf, respondedSuccess, respondedError,
          Response.isError], ?_⟩
        exact propagates_failed_call _ _ _ err 404 (by simp [callsOf]) (by simp [responsesOf])
      · rcases hdel : app.Delete s1 key.PeerID with ⟨err | removed, s2⟩
        · rw [Delete_failed pkg app c s s1 s2 keyID key err h hget hdel]
          refine ⟨by simp [OneResponse, responsesOf, respondedSuccess, respondedError,
            Response.isError], ?_⟩
          exact propagates_cons _ _ _ (by simp) (propagates_failed_call _ _ _ err 500
            (by simp [callsOf]) (by simp [responsesOf]))
        · rw [Delete_ok pkg app c s s1 s2 keyID key removed h hget hdel]
          refine ⟨by simp [OneResponse, responsesOf, respondedSuccess, respondedError,
            Response.isError], ?_⟩
          exact propagates_cons _ _ _ (by simp) (propagates_cons _ _ _ (by simp)
            (propagates_cons _ _ _ (by simp) (propagates_cons _ _ _ (by simp)
              (propagates_nil _))))
  · rcases h : c.Body with err | bytes
    · rw [Import_unreadable app c s err h]
      refine ⟨by simp [OneResponse, responsesOf, respondedSuccess, respondedError,
        Response.isError], ?_⟩
      exact propagates_cons _ _ _ (by simp) (propagates_cons _ _ _ (by simp) (propagates_nil _))
    · rcases himp : app.Import s bytes (c.Query "oldpassword") with ⟨err | key, s1⟩
      · rw [Import_failed app c s s1 bytes err h himp]
        refine ⟨by simp [OneResponse, responsesOf, respondedSuccess, respondedError,
          Response.isError], ?_⟩
        exact propagates_failed_call _ _ _ err 500 (by simp [callsOf]) (by simp [responsesOf])
      · rw [Import_ok app c s s1 bytes key h himp]
        refine ⟨by simp [OneResponse, responsesOf, respondedSuccess, respondedError,
          Response.isError], ?_⟩
        exact propagates_cons _ _ _ (by simp) (propagates_cons _ _ _ (by simp)
          (propagates_cons _ _ _ (by simp) (propagates_cons _ _ _ (by simp)
            (propagates_nil _))))
  · rcases h : pkg.MakePeerID (c.Param "ID") with err | keyID
    · rw [Export_invalid pkg app c s err h]
      refine ⟨by simp [OneResponse, responsesOf, respondedSuccess, respondedError,
        Response.isError], ?_⟩
      exact propagates_cons _ _ _ (by simp) (propagates_cons _ _ _ (by simp) (propagates_nil _))
    · rcases hexp : app.Export s keyID (c.Query "newpassword") with ⟨err | bytes, s1⟩
      · rw [Export_failed pkg app c s s1 keyID err h hexp]
        refine ⟨by simp [OneResponse, responsesOf, respondedSuccess, respondedError,
          Response.isError], ?_⟩
        exact propagates_failed_call _ _ _ err 500 (by simp [callsOf]) (by simp [responsesOf])
      · rw [Export_ok pkg app c s s1 keyID bytes h hexp]
        refine ⟨by simp [OneResponse, responsesOf, respondedSuccess, respondedError,
          Response.isError], ?_⟩
        exact propagates_cons _ _ _ (by simp) (propagates_cons _ _ _ (by simp)
          (propagates_cons _ _ _ (by simp) (propagates_cons _ _ _ (by simp)
            (propagates_nil _))))

theorem one_response_errors_propagated_witness :
    callsOf [Effect.respond (.apiError 500 errKeyNotFound)] = [] ∧
    ∃ status, responsesOf (P2PKeysController.Delete demoPackages aliasApp
      (mkContext [("keyID", "peerB")] [] []) [⟨"peerB"⟩]).2 =
        [Response.apiError status errKeyNotFound] :=
  (one_response_errors_propagated demoPackages aliasApp (mkContext [("keyID", "peerB")] [] [])
    [⟨"peerB"⟩]).2.2.1.2 [.call (.Get ⟨"peerB"⟩) none]
    [.respond (.apiError 500 errKeyNotFound)] (.Delete ⟨"peerA"⟩) errKeyNotFound (by decide)

/-! ## Import and Export -/

/-- C9: when Export succeeds for peer ID `keyID` and password `p`, the body of
its response is exactly the bytes the key store's Export returned; the Import
handler given those bytes as body and `oldpassword = p` makes one key-store
call, Import with exactly those bytes and `p`, on any state; and when that
call returns a key (with peer ID `keyID`), the handler's response presents
that same key. -/
theorem export_import_roundtrip {σ : Type} (pkg : Packages) (app : Application σ)
    (c1 : Context) (s s1 : σ) (keyID : PeerID) (p : String) (bytes : Bytes)
    (hid : pkg.MakePeerID (c1.Param "ID") = .ok keyID)
    (hp : c1.Query "newpassword" = p)
    (hexp : app.Export s keyID p = (.ok bytes, s1)) :
    responsesOf (P2PKeysController.Export pkg app c1 s).2 = [.data 200 pkg.MediaType bytes] ∧
    (P2PKeysController.Export pkg app c1 s).1 = s1 ∧
    ∀ (c2 : Context) (t : σ), c2.Body = .ok bytes → c2.Query "oldpassword" = p →
      callNamesOf (P2PKeysController.Import app c2 t).2 = [.Import bytes p] ∧
      (P2PKeysController.Import app c2 t).1 = (app.Import t bytes p).2 ∧
      ∀ key, (app.Import t bytes p).1 = .ok key → key.PeerID = keyID →
        responsesOf (P2PKeysController.Import app c2 t).2 =
          [.apiResource 200 (.p2pKey key) "p2pKey"] ∧
        key.PeerID = keyID := by
  subst hp
  refine ⟨?_, ?_, ?_⟩
  · rw [Export_ok pkg app c1 s s1 keyID bytes hid hexp]
    simp [responsesOf]
  · rw [Export_ok pkg app c1 s s1 keyID bytes hid hexp]
  · intro c2 t hbody hq
    rcases himp : app.Import t bytes (c2.Query "oldpassword") with ⟨err | key, t1⟩
    · rw [Import_failed app c2 t t1 bytes err hbody himp, ← hq, himp]
      simp [callNamesOf, callsOf]
    · rw [Import_ok app c2 t t1 bytes key hbody himp, ← hq, himp]
      simp only [callNamesOf, callsOf, List.map, responsesOf, true_and]
      intro key2 hkey hpeer
      simp only [Except.ok.injEq] at hkey
      subst hkey
      exact ⟨rfl, hpeer⟩

theorem export_import_roundtrip_witness :
    responsesOf (P2PKeysController.Export demoPackages memApp
        (mkContext [("ID", "peerB")] [("newpassword", "pw")] [])
        { keys := [keyB], fresh := [], jobErrors := [] }).2 =
      [.data 200 "application/vnd.api+json" (memSeal "pw" ⟨"peerB"⟩)] ∧
    responsesOf (P2PKeysController.Import memApp
        (mkContext [] [("oldpassword", "pw")] (memSeal "pw" ⟨"peerB"⟩)) memState0).2 =
      [.apiResource 200 (.p2pKey keyB) "p2pKey"] :=
  have h := export_import_roundtrip demoPackages memApp
    (mkContext [("ID", "peerB")] [("newpassword", "pw")] [])
    { keys := [keyB], fresh := [], jobErrors := [] }
    { keys := [keyB], fresh := [], jobErrors := [] }
    ⟨"peerB"⟩ "pw" (memSeal "pw" ⟨"peerB"⟩) (by decide) (by decide) (by decide)
  ⟨h.1, ((h.2.2 (mkContext [] [("oldpassword", "pw")] (memSeal "pw" ⟨"peerB"⟩)) memState0
    (by decide) (by decide)).2.2 keyB (by decide) (by decide)).1⟩

/-- C8: with the key store's Import as the spec describes it, the Import
handler's response when the import fails because the passphrase is wrong is
identical, in status and in error message, to its response when the import
fails because the data is corrupted: in both cases the integrity tag of a
supported envelope does not verify, the store reports the one
AuthenticationError, and the handler answers 500 with that error's message,
emits no audit event and leaves the store as it was. -/
theorem import_authentication_failure_uniform (cipher : PassphraseCipher)
    (format : EnvelopeFormat) (persist : KeyV2 → Bool) (base : Application (List KeyV2))
    (c1 c2 : Context) (keys1 keys2 : List KeyV2) (bytes1 bytes2 : Bytes)
    (hb1 : c1.Body = .ok bytes1) (hb2 : c2.Body = .ok bytes2)
    (hv1 : format.supported (format.decode bytes1).formatVersion = true)
    (hv2 : format.supported (format.decode bytes2).formatVersion = true)
    (hwrong : tagFails cipher (format.decode bytes1) (c1.Query "oldpassword"))
    (hcorrupt : tagFails cipher (format.decode bytes2) (c2.Query "oldpassword")) :
    visibleResponses (P2PKeysController.Import (specStore cipher format persist base) c1 keys1).2
      = visibleResponses
          (P2PKeysController.Import (specStore cipher format persist base) c2 keys2).2 ∧
    visibleResponses (P2PKeysController.Import (specStore cipher format persist base) c1 keys1).2
      = [(500, some AuthenticationError.Error)] ∧
    auditsOf (P2PKeysController.Import (specStore cipher format persist base) c1 keys1).2 = [] ∧
    auditsOf (P2PKeysController.Import (specStore cipher format persist base) c2 keys2).2 = [] ∧
    (P2PKeysController.Import (specStore cipher format persist base) c1 keys1).1 = keys1 ∧
    (P2PKeysController.Import (specStore cipher format persist base) c2 keys2).1 = keys2 := by
  have h1 : (specStore cipher format persist base).Import keys1 bytes1 (c1.Query "oldpassword")
      = (.error AuthenticationError, keys1) := by
    unfold tagFails at hwrong
    simp [specStore, specImport, openEnvelope, hv1, hwrong]
  have h2 : (specStore cipher format persist base).Import keys2 bytes2 (c2.Query "oldpassword")
      = (.error AuthenticationError, keys2) := by
    unfold tagFails at hcorrupt
    simp [specStore, specImport, openEnvelope, hv2, hcorrupt]
  rw [Import_failed _ c1 keys1 keys1 bytes1 AuthenticationError hb1 h1,
    Import_failed _ c2 keys2 keys2 bytes2 AuthenticationError hb2 h2]
  simp [visibleResponses, responsesOf, auditsOf, Response.status, Response.message]

theorem import_authentication_failure_uniform_witness :
    (toyStore.Import [keyA] toyEnvelopeB "pw").1 = .ok keyB ∧
    visibleResponses (P2PKeysController.Import toyStore
        (mkContext [] [("oldpassword", "bad")] toyEnvelopeB) [keyA]).2
      = visibleResponses (P2PKeysController.Import toyStore
        (mkContext [] [("oldpassword", "pw")] toyEnvelopeBCorrupted) [keyA]).2 :=
  ⟨by decide,
   (import_authentication_failure_uniform toyCipher toyFormat (fun _ => true) _
    (mkContext [] [("oldpassword", "bad")] toyEnvelopeB)
    (mkContext [] [("oldpassword", "pw")] toyEnvelopeBCorrupted) [keyA] [keyA]
    toyEnvelopeB toyEnvelopeBCorrupted (by decide) (by decide) (by decide) (by decide)
    (by decide) (by decide)).1⟩

/-! ## Delete twice -/

theorem memApp_deleteThenGetFails : DeleteThenGetFails memApp := by
  intro s id removed s1 h
  simp only [memApp] at h
  split at h
  · simp only [Prod.mk.injEq, Except.ok.injEq] at h
    obtain ⟨_, rfl⟩ := h
    have hnone : List.find? (fun k => decide (k.PeerID = id))
        (List.filter (fun k => decide (k.PeerID ≠ id)) s.keys) = none := by
      rw [List.find?_eq_none]
      intro k hk
      simp only [List.mem_filter, decide_eq_true_eq] at hk
      simpa using hk.2
    simp only [memApp, hnone]
    exact ⟨_, _, rfl⟩
  · simp at h

theorem memApp_getReturnsRequested : GetReturnsRequested memApp := by
  intro s id key s1 h
  simp only [memApp] at h
  split at h
  · rename_i k hfind
    simp only [Prod.mk.injEq, Except.ok.injEq] at h
    obtain ⟨rfl, _⟩ := h
    simpa using List.find?_some hfind
  · simp at h

/-- C4: for every key store that satisfies the store contract (the store is
keyed by peer ID, so Get(id) returns the key whose peer ID is id; and after
Delete(id) succeeds, Get(id) fails) and every request: after the Delete
handler answered the request with success, the Delete handler called again
with the same request answers 404, makes no key-store call but one Get, so
does not invoke the store's Delete again, and emits no audit event. -/
theorem second_delete_not_found {σ : Type} (pkg : Packages) (app : Application σ)
    (c : Context) (s : σ) (hcontract : DeleteThenGetFails app)
    (hget : GetReturnsRequested app)
    (hfirst : respondedSuccess (P2PKeysController.Delete pkg app c s).2 = true) :
    ∃ keyID err,
      pkg.MakePeerID (c.Param "keyID") = .ok keyID ∧
      responsesOf (P2PKeysController.Delete pkg app c
        (P2PKeysController.Delete pkg app c s).1).2 = [.apiError 404 err] ∧
      callsOf (P2PKeysController.Delete pkg app c
        (P2PKeysController.Delete pkg app c s).1).2 = [(.Get keyID, some err)] ∧
      (callNamesOf (P2PKeysController.Delete pkg app c
        (P2PKeysController.Delete pkg app c s).1).2).any Call.isDelete = false ∧
      auditsOf (P2PKeysController.Delete pkg app c
        (P2PKeysController.Delete pkg app c s).1).2 = [] := by
  rcases h : pkg.MakePeerID (c.Param "keyID") with err | keyID
  · rw [Delete_invalid pkg app c s err h] at hfirst
    simp [respondedSuccess, responsesOf, Response.isError] at hfirst
  · rcases hg : app.Get s keyID with ⟨err | key, s1⟩
    · rw [Delete_absent pkg app c s s1 keyID err h hg] at hfirst
      simp [respondedSuccess, responsesOf, Response.isError] at hfirst
    · rcases hdel : app.Delete s1 key.PeerID with ⟨err | removed, s2⟩
      · rw [Delete_failed pkg app c s s1 s2 keyID key err h hg hdel] at hfirst
        simp [respondedSuccess, responsesOf, Response.isError] at hfirst
      · have hpeer : key.PeerID = keyID := hget s keyID key s1 hg
        rw [hpeer] at hdel
        obtain ⟨err, s3, hgone⟩ := hcontract s1 keyID removed s2 hdel
        rw [← hpeer] at hdel
        rw [Delete_ok pkg app c s s1 s2 keyID key removed h hg hdel]
        rw [Delete_absent pkg app c s2 s3 keyID err h hgone]
        exact ⟨keyID, err, rfl, by simp [responsesOf], by simp [callsOf],
          by simp [callNamesOf, callsOf, Call.isDelete], by simp [auditsOf]⟩

theorem second_delete_not_found_witness :
    ∃ keyID err,
      demoPackages.MakePeerID ((mkContext [("keyID", "peerA")] [] []).Param "keyID")
        = .ok keyID ∧
      responsesOf (P2PKeysController.Delete demoPackages memApp
        (mkContext [("keyID", "peerA")] [] [])
        (P2PKeysController.Delete demoPackages memApp
          (mkContext [("keyID", "peerA")] [] []) memState0).1).2 = [.apiError 404 err] ∧
      callsOf (P2PKeysController.Delete demoPackages memApp
        (mkContext [("keyID", "peerA")] [] [])
        (P2PKeysController.Delete demoPackages memApp
          (mkContext [("keyID", "peerA")] [] []) memState0).1).2 = [(.Get keyID, some err)] ∧
      (callNamesOf (P2PKeysController.Delete demoPackages memApp
        (mkContext [("keyID", "peerA")] [] [])
        (P2PKeysController.Delete demoPackages memApp
          (mkContext [("keyID", "peerA")] [] []) memState0).1).2).any Call.isDelete = false ∧
      auditsOf (P2PKeysController.Delete demoPackages memApp
        (mkContext [("keyID", "peerA")] [] [])
        (P2PKeysController.Delete demoPackages memApp
          (mkContext [("keyID", "peerA")] [] []) memState0).1).2 = [] :=
  second_delete_not_found demoPackages memApp (mkContext [("keyID", "peerA")] [] []) memState0
    memApp_deleteThenGetFails memApp_getReturnsRequested (by decide)

/-! ## PipelineJobSpecErrorsController.Destroy -/

/-- C6: the status of the single response of Destroy, the calls it makes and
the audit events it emits are the function `destroyExpected` of the outcome of
SetID and of the outcome of DismissError on the parsed ID: 422 without a call
when SetID rejects the parameter; otherwise one DismissError call and 404 when
its error is `sql.ErrNoRows`, 500 for any other error, 204 with one
JobErrorDismissed event carrying the parsed ID for no error; no audit event in
the first three cases. In the 404 case the response carries the message
"PipelineJobSpecError not found". -/
theorem destroy_outcome {σ : Type} (pkg : Packages) (app : Application σ) (c : Context)
    (s : σ) :
    observe (PipelineJobSpecErrorsController.Destroy pkg app c s).2 =
      destroyExpected (pkg.SetID (c.Param "ID")) (fun id => (app.DismissError s id).1) ∧
    (∀ id err, pkg.SetID (c.Param "ID") = .ok id → (app.DismissError s id).1 = some err →
      err.Is sqlErrNoRows = true →
      ∃ e, responsesOf (PipelineJobSpecErrorsController.Destroy pkg app c s).2 =
          [.apiError 404 e] ∧
        e.Error = "PipelineJobSpecError not found") := by
  refine ⟨?_, ?_⟩
  · unfold PipelineJobSpecErrorsController.Destroy
    rcases hset : pkg.SetID (c.Param "ID") with err | id
    · simp [observe, destroyExpected, responsesOf, callNamesOf, callsOf, auditsOf, jsonAPIError,
        Response.status, StatusUnprocessableEntity]
    · rcases hdis : app.DismissError s id with ⟨err | err, s1⟩
      · simp [observe, destroyExpected, responsesOf, callNamesOf, callsOf, auditsOf, hdis,
          errorsIs, jsonAPIResponseWithStatus, Response.status, StatusNoContent]
      · by_cases his : err.Is sqlErrNoRows = true
        · simp [observe, destroyExpected, responsesOf, callNamesOf, callsOf, auditsOf, hdis,
            errorsIs, his, jsonAPIError, Response.status, StatusNotFound]
        · simp [observe, destroyExpected, responsesOf, callNamesOf, callsOf, auditsOf, hdis,
            errorsIs, his, jsonAPIError, Response.status, StatusInternalServerError]
  · intro id err hset herr his
    rcases hdis : app.DismissError s id with ⟨r, s1⟩
    rw [hdis] at herr
    simp only at herr
    subst herr
    refine ⟨errPipelineJobSpecErrorNotFound, ?_, rfl⟩
    simp [PipelineJobSpecErrorsController.Destroy, hset, hdis, errorsIs, his, responsesOf,
      jsonAPIError, StatusNotFound]

theorem destroy_outcome_witness :
    ∃ e, responsesOf (PipelineJobSpecErrorsController.Destroy demoPackages memApp
        (mkContext [("ID", "8")] [] []) memState0).2 = [.apiError 404 e] ∧
      e.Error = "PipelineJobSpecError not found" :=
  (destroy_outcome demoPackages memApp (mkContext [("ID", "8")] [] []) memState0).2 8
    (.wrap "DismissError failed" sqlErrNoRows) (by decide) (by decide) (by decide)

end Chainlink
